import Mathlib

/-!
Shallow embedding of the validation and checksum scripts of the
global-ev-infra-dataset repository:

* `src/scripts/validate_dataset.py` — rule-based CSV validator
  (helpers `_assert_unique`, `_assert_regex`, `_assert_range`,
  `_assert_nonneg`, `_require_cols`, `_read_csv`, `_warn`, `_fail`,
  and the `validate` driver with its inline power_class check and
  cross-table reconciler);
* `src/scripts/write_checksums.py` — checksum file writer.

A pandas column is modelled as a list of cells, where a cell is either a
missing value (`none`, pandas NaN) or a text payload (`some s`, the value
as it appears in the CSV).  Numbers are modelled as rationals: every
numeric value the scripts compare is a finite decimal, for which rational
arithmetic agrees with float arithmetic.  Printing is modelled by
accumulating structured messages (marker plus the data the f-strings
interpolate); `SystemExit(1)` raised by `_fail` is modelled as an
`exit1` outcome, an uncaught Python exception as `pyError`.
-/

namespace EVInfra

/-- A pandas cell: `none` is a missing value (NaN), `some s` is the textual
payload of a present value. -/
abbrev Cell := Option String

/-- `series.dropna()`: the non-null values, in order. -/
def dropna (cells : List Cell) : List String := cells.filterMap id

/-- `astype(str)` on one cell: pandas renders a missing value (NaN) as the
string "nan"; a present text value is unchanged. -/
def astypeStr : Cell → String
  | none => "nan"
  | some s => s

/-- Drop leading whitespace from a character list. -/
def trimLeftChars : List Char → List Char
  | [] => []
  | c :: cs => if c.isWhitespace then trimLeftChars cs else c :: cs

/-- Python `str.strip()`: drop surrounding whitespace. -/
def trimChars (cs : List Char) : List Char :=
  ((trimLeftChars cs).reverse |> trimLeftChars).reverse

/-- Digit-string value (helper for the numeric coercion model). -/
def digitsVal (cs : List Char) : Nat :=
  cs.foldl (fun a c => a * 10 + (c.toNat - 48)) 0

/-- Parse a non-empty all-digit character list. -/
def parseDigits? (cs : List Char) : Option Nat :=
  if cs.all (fun c => c.isDigit) then some (digitsVal cs) else none

/-- Unsigned decimal literal as a numerator/denominator pair: digits with
an optional fractional part (`"90"`, `"90.0001"`, `"1."`, `".5"`);
anything else fails.  `"90.0001"` gives `(900001, 10000)`. -/
def parseUnsigned (cs : List Char) : Option (Nat × Nat) :=
  match cs.span (fun c => c != '.') with
  | (ip, []) =>
      if ip.isEmpty then none
      else (parseDigits? ip).map (fun n => (n, 1))
  | (ip, _ :: fp) =>
      if ip.isEmpty && fp.isEmpty then none
      else
        (parseDigits? ip).bind (fun n =>
          (parseDigits? fp).map (fun m =>
            (n * 10 ^ fp.length + m, 10 ^ fp.length)))

/-- Model of `pd.to_numeric(·, errors="coerce")` on one text value: strip
surrounding whitespace, optional sign, decimal digits with optional
fractional part, assembled into a rational.  A value that fails coercion
yields `none` (NaN).  (Exponent and infinity spellings are outside the
data the claims touch.) -/
def parseNum (s : String) : Option Rat :=
  match trimChars s.data with
  | '+' :: r => (parseUnsigned r).map (fun p => mkRat p.1 p.2)
  | '-' :: r => (parseUnsigned r).map (fun p => mkRat (-(p.1 : Int)) p.2)
  | r => (parseUnsigned r).map (fun p => mkRat p.1 p.2)

/-- Numeric view of a cell: `to_numeric` maps a null to NaN and an
uncoercible text to NaN; both are `none` here. -/
def cellNum (c : Cell) : Option Rat := c.bind parseNum

/-- A Python float bound as used by the range rule: a finite rational or
+infinity (`float("inf")`).  The spec describes NonNegative as
NumericRange(0, +infinity), so the upper bound must be able to be infinite. -/
inductive Fl where
  | fin (q : Rat)
  | pinf
deriving DecidableEq, Repr

/-- `q < lo` for a float bound `lo`. -/
def ratLtFl (q : Rat) : Fl → Bool
  | .fin r => q < r
  | .pinf => true

/-- `q > hi` for a float bound `hi`; no finite value exceeds +infinity. -/
def ratGtFl (q : Rat) : Fl → Bool
  | .fin r => r < q
  | .pinf => false

/-- `_assert_range`, validate_dataset.py lines 52-60:
`s = pd.to_numeric(series, errors="coerce").dropna()` followed by
`bad = s[(s < lo) | (s > hi)]`.  Nulls and coercion failures are NaN and
are removed by `dropna`. -/
def range_bad (cells : List Cell) (lo hi : Fl) : List Rat :=
  (cells.filterMap cellNum).filter (fun q => ratLtFl q lo || ratGtFl q hi)

/-- `_assert_nonneg`, validate_dataset.py lines 62-66:
`s = pd.to_numeric(series, errors="coerce")` (no dropna) followed by
`bad = s[s < 0]`.  `NaN < 0` is false in pandas, so NaN entries (nulls and
coercion failures) never enter `bad`. -/
def nonneg_bad (cells : List Cell) : List Rat :=
  (cells.filterMap cellNum).filter (fun q => q < 0)

/-- `series.duplicated()` restricted to the marked values: walk the list
keeping the set of values already seen; an occurrence of a value seen
earlier is a duplicate (occurrences after the first). -/
def duplicatedMarks (seen : List String) : List String → List String
  | [] => []
  | x :: xs =>
      if x ∈ seen then x :: duplicatedMarks seen xs
      else duplicatedMarks (x :: seen) xs

/-- `_assert_unique`, validate_dataset.py lines 68-76:
`s = series.dropna()`, `dups = s[s.duplicated()]`. -/
def unique_dups (cells : List Cell) : List String :=
  duplicatedMarks [] (dropna cells)

/-- `s.str.match(r"^[A-Z]{2}$")` for one value: exactly two uppercase
ASCII letters match the whole string. -/
def ccMatch (s : String) : Bool :=
  s.length == 2 && s.data.all (fun c => 'A' ≤ c && c ≤ 'Z')

/-- `_assert_regex`, validate_dataset.py lines 42-50, at the one pattern
the script uses (`^[A-Z]{2}$` on country_code): `s = series.dropna().astype(str)`,
`bad = s[~s.str.match(pattern)]`. -/
def regex_bad (cells : List Cell) : List String :=
  (dropna cells).filter (fun s => !ccMatch s)

/-- `.str.strip().str.lower()` normalization of one value (ASCII
lowercasing, which covers the power-class vocabulary). -/
def normalizePc (s : String) : String :=
  String.mk ((trimChars s.data).map Char.toLower)

/-- The allowed power classes, validate_dataset.py line 145. -/
def allowedPc : List String := ["slow", "fast", "hpc"]

/-- The inline power_class check, validate_dataset.py lines 144-146:
`pc = stations["power_class"].astype(str).str.strip().str.lower()` and
`bad_pc = pc[~pc.isin(allowed)]`.  Note there is no `dropna`: a null cell
is stringified by `astype(str)` to "nan" before the membership test. -/
def power_class_bad (cells : List Cell) : List String :=
  (cells.map (fun c => normalizePc (astypeStr c))).filter
    (fun s => !(allowedPc.contains s))

/-- Reading of the spec sentence for SetMembership: normalize each
NON-NULL value and flag it iff the normalized form is not in the allowed
set (nulls ignored).  Compared against `power_class_bad` for claim C1. -/
def spec_setMembership_bad (cells : List Cell) : List String :=
  ((dropna cells).map normalizePc).filter (fun s => !(allowedPc.contains s))

/-- Reading of the spec sentence for NumericRange: per non-null value,
coerce; coercion failures are dropped; a parsed number is flagged iff it
is strictly below `lo` or strictly above `hi`.  Compared against
`range_bad` for claim C7. -/
def spec_range_bad (cells : List Cell) (lo hi : Fl) : List Rat :=
  cells.filterMap (fun c => (cellNum c).filter (fun q => ratLtFl q lo || ratGtFl q hi))

/-- The data a violation message interpolates: one constructor per
f-string the validator can print.  Samples are `bad.head(5).tolist()`. -/
inductive Payload where
  | missingCols (table : String) (missing : List String)
  | dupIds (name : String) (count : Nat) (sample : List String)
  | regexViol (name : String) (count : Nat) (sample : List String)
  | rangeViol (name : String) (count : Nat) (lo hi : Fl) (sample : List Rat)
  | negViol (name : String) (count : Nat) (sample : List Rat)
  | setViol (name : String) (count : Nat) (sample : List String)
  | countColViol (table : String)
  | readFail (path : String)
deriving DecidableEq, Repr

/-- The glyph a printed message starts with: `_fail` prints the failure
marker, `_warn` (in advisory mode) the warning marker. -/
inductive Marker where
  | fail
  | warn
deriving DecidableEq, Repr

/-- `_assert_unique` as a check outcome: `some` iff `len(dups) > 0`. -/
def uniqueCheck (name : String) (cells : List Cell) : Option Payload :=
  let dups := unique_dups cells
  if dups.length > 0 then some (.dupIds name dups.length (dups.take 5)) else none

/-- `_assert_regex` (country_code pattern) as a check outcome. -/
def regexCheck (name : String) (cells : List Cell) : Option Payload :=
  let bad := regex_bad cells
  if bad.length > 0 then some (.regexViol name bad.length (bad.take 5)) else none

/-- `_assert_range` as a check outcome. -/
def rangeCheck (name : String) (cells : List Cell) (lo hi : Fl) : Option Payload :=
  let bad := range_bad cells lo hi
  if bad.length > 0 then some (.rangeViol name bad.length lo hi (bad.take 5)) else none

/-- `_assert_nonneg` as a check outcome. -/
def nonnegCheck (name : String) (cells : List Cell) : Option Payload :=
  let bad := nonneg_bad cells
  if bad.length > 0 then some (.negViol name bad.length (bad.take 5)) else none

/-- The inline power_class membership check as a check outcome,
validate_dataset.py lines 147-154. -/
def setCheck (name : String) (cells : List Cell) : Option Payload :=
  let bad := power_class_bad cells
  if bad.length > 0 then some (.setViol name bad.length (bad.take 5)) else none

/-- A loaded DataFrame: an association list from column name to column. -/
structure Table where
  cols : List (String × List Cell)
deriving DecidableEq, Repr

/-- `c in df.columns`. -/
def Table.hasCol (t : Table) (c : String) : Bool := (t.cols.lookup c).isSome

/-- `df[c]` (empty when the column is absent; the driver only reads
columns whose presence it has established). -/
def Table.col (t : Table) (c : String) : List Cell := (t.cols.lookup c).getD []

/-- The required columns of the stations table, validate_dataset.py
lines 116-128. -/
def requiredCols : List String :=
  ["id", "name", "city", "country_code", "state_province", "latitude",
   "longitude", "ports", "power_kw", "power_class", "is_fast_dc"]

/-- `_require_cols`, validate_dataset.py lines 37-40: the required names
absent from the table, in declaration order. -/
def missingColsOf (t : Table) : List String :=
  requiredCols.filter (fun c => !(t.hasCol c))

/-- The per-column data-quality checks of `validate`, lines 131-154, in
declared order: unique id, country_code regex, latitude and longitude
ranges, ports and power_kw non-negativity, power_class membership. -/
def stationsChecks (path : String) (t : Table) : List (Option Payload) :=
  [ uniqueCheck (path ++ ".id") (t.col "id")
  , regexCheck (path ++ ".country_code") (t.col "country_code")
  , rangeCheck (path ++ ".latitude") (t.col "latitude") (.fin (mkRat (-90) 1)) (.fin (mkRat 90 1))
  , rangeCheck (path ++ ".longitude") (t.col "longitude") (.fin (mkRat (-180) 1)) (.fin (mkRat 180 1))
  , nonnegCheck (path ++ ".ports") (t.col "ports")
  , nonnegCheck (path ++ ".power_kw") (t.col "power_kw")
  , setCheck (path ++ ".power_class") (t.col "power_class") ]

/-- Result of running the per-column checks through `_warn`: messages
printed, whether `_fail` aborted the run, and how many checks executed. -/
structure ChecksResult where
  printed : List (Marker × Payload)
  aborted : Bool
  evaluated : Nat
deriving DecidableEq, Repr

/-- Run the checks in order, routing each violation through `_warn`
(lines 18-21): in strict mode the first violation prints with the failure
marker and raises `SystemExit` (no later check runs); in advisory mode it
prints with the warning marker and the run continues. -/
def runChecks (strict : Bool) : List (Option Payload) → ChecksResult
  | [] => ⟨[], false, 0⟩
  | none :: rest =>
      let r := runChecks strict rest
      ⟨r.printed, r.aborted, r.evaluated + 1⟩
  | some v :: rest =>
      if strict then ⟨[(.fail, v)], true, 1⟩
      else
        let r := runChecks strict rest
        ⟨(.warn, v) :: r.printed, r.aborted, r.evaluated + 1⟩

/-- `stations.groupby("country_code")["id"].size()` at one key: the
number of primary rows carrying that key (groupby drops null keys). -/
def computedCount (codes : List Cell) (k : String) : Nat :=
  (codes.filter (fun c => c == some k)).length

/-- One row of the reconciliation: summary key, declared count, count
recomputed from the primary table. -/
structure RecEntry where
  key : String
  declared : Int
  computed : Nat
deriving DecidableEq, Repr

/-- Truncation toward zero, the behaviour of `astype(int)` on a float. -/
def ratTrunc (q : Rat) : Int := q.num.tdiv q.den

/-- `astype(int)` on a count cell.  `read_csv` has already parsed the
numeric text; a cell that is not numeric would make `astype(int)` raise
and is outside the scenarios the claims exercise. -/
def intOfCell (c : Cell) : Int := (cellNum c).elim 0 ratTrunc

/-- The summary rows as (key, declared count) pairs:
`country.set_index("country_code")[[count_col]]` with the count column
cast by `astype(int)`. -/
def summaryPairs (ct : Table) (countCol : String) : List (String × Int) :=
  ((ct.col "country_code").zip (ct.col countCol)).filterMap
    (fun kv => kv.1.map (fun k => (k, intOfCell kv.2)))

/-- validate_dataset.py lines 174-178: per summary key, `computed` is the
primary count (`join` plus `fillna(0)` makes an absent key 0),
`diff = (declared - computed).abs()`, and `bad = diff[diff > 0]`. -/
def reconcileFlagged (codes : List Cell) (summary : List (String × Int)) : List RecEntry :=
  (summary.map (fun kv => RecEntry.mk kv.1 kv.2 (computedCount codes kv.1))).filter
    (fun e => (e.declared - (e.computed : Int)).natAbs > 0)

/-- validate_dataset.py lines 162-167: the count column is `stations` if
present, else `count` if present, else unidentified. -/
def pickCountCol (ct : Table) : Option String :=
  if ct.hasCol "stations" then some "stations"
  else if ct.hasCol "count" then some "count"
  else none

/-- A located CSV file: either it parses to a table or `pd.read_csv`
raises (in which case `_read_csv` calls `_fail`, lines 30-35). -/
inductive CsvSource where
  | parseOk (path : String) (t : Table)
  | parseFail (path : String)
deriving DecidableEq, Repr

/-- How the process ends: normal return (exit status 0), `SystemExit(1)`
from `_fail`, or an uncaught Python exception (traceback, non-zero exit). -/
inductive Outcome where
  | exit0
  | exit1
  | pyError (msg : String)
deriving DecidableEq, Repr

/-- Observable result of a `validate` run: the structured messages
printed in order, the process outcome, and how many of the per-column
data-quality checks were evaluated. -/
structure RunResult where
  printed : List (Marker × Payload)
  outcome : Outcome
  rulesEvaluated : Nat
deriving DecidableEq, Repr

/-- The message `Series.to_dict(orient="records")` raises with at
validate_dataset.py line 180: `Series.to_dict` accepts no such keyword. -/
def toDictTypeError : String :=
  "TypeError: Series.to_dict got an unexpected keyword argument orient"

/-- The companion-file phase of `validate`, lines 156-185, entered after
the per-column checks finished without aborting (`r` is their result and
`t` the loaded primary table): no companion file means a normal finish; a
companion read failure is fatal (`_read_csv` calls `_fail`); a companion
without a country_code column is skipped silently; an unrecognizable
count column routes through `_warn`; otherwise the reconciler runs, and
if any key is flagged the sample construction
`bad.head(5).to_dict(orient="records")` raises `TypeError` before any
message is built. -/
def companionPhase (strict : Bool) (t : Table) (r : ChecksResult) :
    Option CsvSource → RunResult
  | none => ⟨r.printed, .exit0, r.evaluated⟩
  | some (.parseFail cp) =>
      ⟨r.printed ++ [(.fail, .readFail cp)], .exit1, r.evaluated⟩
  | some (.parseOk cpath ct) =>
      if ct.hasCol "country_code" then
        match pickCountCol ct with
        | none =>
            if strict then
              ⟨r.printed ++ [(.fail, .countColViol cpath)], .exit1, r.evaluated⟩
            else
              ⟨r.printed ++ [(.warn, .countColViol cpath)], .exit0, r.evaluated⟩
        | some cc =>
            let flagged := reconcileFlagged (t.col "country_code") (summaryPairs ct cc)
            if flagged.isEmpty then ⟨r.printed, .exit0, r.evaluated⟩
            else ⟨r.printed, .pyError toDictTypeError, r.evaluated⟩
      else ⟨r.printed, .exit0, r.evaluated⟩

/-- `validate`, validate_dataset.py lines 90-186, from the located
primary file onward: read the primary table (read failure is fatal),
required-columns gate (fatal, before any rule), the seven per-column
checks through `_warn` (strict abort ends the run), then the
companion-file phase. -/
def validate (strict : Bool) (primary : CsvSource) (companion : Option CsvSource) : RunResult :=
  match primary with
  | .parseFail p => ⟨[(.fail, .readFail p)], .exit1, 0⟩
  | .parseOk path t =>
    if (missingColsOf t).isEmpty then
      let r := runChecks strict (stationsChecks path t)
      if r.aborted then ⟨r.printed, .exit1, r.evaluated⟩
      else companionPhase strict t r companion
    else ⟨[(.fail, .missingCols path (missingColsOf t))], .exit1, 0⟩

/-- The filesystem as `write_checksums` sees it: `root.glob(pattern)`
returning matched paths (modelled as already-canonical root-relative
strings, so `resolve` and `relative_to(root)` are the identity),
`p.is_file()`, and the SHA-256 digest of a file's bytes. -/
structure FS where
  glob : String → List String
  isFile : String → Bool
  digest : String → String

/-- Python string order: lexicographic by code point (the order `sorted`
uses on paths), as the lexicographic order on the character lists. -/
def pathLe (a b : String) : Prop := a.data ≤ b.data

instance : DecidableRel pathLe := fun a b =>
  inferInstanceAs (Decidable (a.data ≤ b.data))

/-- `sorted({...})`: deduplicate, then sort canonically.  The input set
has no duplicates, so any sorting algorithm yields the unique
`pathLe`-sorted arrangement that Python's `sorted` returns. -/
def sortedUnique (l : List String) : List String := l.dedup.insertionSort pathLe

/-- `write_checksums`, write_checksums.py lines 19-30: glob every include
pattern, keep regular files, deduplicate and sort, and emit one
`<digest>  <relative path>` line per file plus a trailing newline. -/
def write_checksums (fs : FS) (includePatterns : List String) : String :=
  let paths := includePatterns.flatMap fs.glob
  let uniq := sortedUnique (paths.filter fs.isFile)
  String.intercalate "\n" (uniq.map (fun p => fs.digest p ++ "  " ++ p)) ++ "\n"

/-! Concrete fixtures used by counterexamples and witnesses. -/

/-- A three-row stations table with country codes US, US, DE that passes
every per-column check. -/
def usDeStations : Table := ⟨[
  ("id", [some "1", some "2", some "3"]),
  ("name", [some "a", some "b", some "c"]),
  ("city", [some "x", some "y", some "z"]),
  ("country_code", [some "US", some "US", some "DE"]),
  ("state_province", [some "s", some "t", some "u"]),
  ("latitude", [some "10.0", some "20.0", some "30.0"]),
  ("longitude", [some "10.0", some "20.0", some "30.0"]),
  ("ports", [some "2", some "4", some "1"]),
  ("power_kw", [some "50", some "22", some "150"]),
  ("power_class", [some "fast", some "slow", some "hpc"]),
  ("is_fast_dc", [some "true", some "false", some "true"])]⟩

/-- A companion summary whose declared counts match `usDeStations`. -/
def summaryMatching : Table :=
  ⟨[("country_code", [some "US", some "DE"]), ("stations", [some "2", some "1"])]⟩

/-- A companion summary declaring US: 3 against the two US rows of
`usDeStations`. -/
def summaryMismatched : Table :=
  ⟨[("country_code", [some "US", some "DE"]), ("stations", [some "3", some "1"])]⟩

/-- A companion summary with no country_code column. -/
def summaryNoKey : Table := ⟨[("stations", [some "3"])]⟩

/-- `usDeStations` with an out-of-range latitude in its first row: its
only rule violation is the latitude range check, the third check in
declared order. -/
def badLatStations : Table := ⟨[
  ("id", [some "1", some "2", some "3"]),
  ("name", [some "a", some "b", some "c"]),
  ("city", [some "x", some "y", some "z"]),
  ("country_code", [some "US", some "US", some "DE"]),
  ("state_province", [some "s", some "t", some "u"]),
  ("latitude", [some "95.0", some "20.0", some "30.0"]),
  ("longitude", [some "10.0", some "20.0", some "30.0"]),
  ("ports", [some "2", some "4", some "1"]),
  ("power_kw", [some "50", some "22", some "150"]),
  ("power_class", [some "fast", some "slow", some "hpc"]),
  ("is_fast_dc", [some "true", some "false", some "true"])]⟩

/-- The violation `badLatStations` triggers. -/
def badLatViol : Payload :=
  .rangeViol "charging_stations_world.csv.latitude" 1
    (.fin (mkRat (-90) 1)) (.fin (mkRat 90 1)) [mkRat 95 1]

/-- A stations table missing every required column except id. -/
def onlyIdStations : Table := ⟨[("id", [some "1"])]⟩

/-- A tiny filesystem for the checksum witness: two patterns matching
overlapping file sets. -/
def twoPatFS : FS :=
  ⟨fun pat => if pat = "data" then ["data/a.csv", "README.md"] else ["README.md"],
   fun _ => true,
   fun p => "digest-of-" ++ p⟩

/-! Theorems. -/

/-- C6: the NonNegative check flags a violation iff NumericRange(0, +infinity)
would, with the same bad-value list, hence the same violation count and
the same head-5 sample. -/
theorem c6_nonneg_equals_range_zero_inf (cells : List Cell) :
    nonneg_bad cells = range_bad cells (.fin (mkRat 0 1)) .pinf ∧
    (∀ name : String, nonnegCheck name cells = none ↔
      rangeCheck name cells (.fin (mkRat 0 1)) .pinf = none) ∧
    (nonneg_bad cells).length = (range_bad cells (.fin (mkRat 0 1)) .pinf).length ∧
    (nonneg_bad cells).take 5 = (range_bad cells (.fin (mkRat 0 1)) .pinf).take 5 := by
  have h0 : mkRat 0 1 = (0 : Rat) := by rw [Rat.mkRat_eq_div]; norm_num
  have hlist : nonneg_bad cells = range_bad cells (.fin (mkRat 0 1)) .pinf := by
    unfold nonneg_bad range_bad
    congr 1
    funext q
    simp [ratLtFl, ratGtFl, h0]
  refine ⟨hlist, ?_, by rw [hlist], by rw [hlist]⟩
  intro name
  simp [nonnegCheck, rangeCheck, hlist]

/-- C7: the numeric-range rule silently drops values that fail numeric
coercion and flags a parsed value iff it is strictly below lo or strictly
above hi (the spec-side reading `spec_range_bad`); concretely for the
latitude bounds, 90.0 passes, 90.0001 = 900001/10000 fails, and
non-numeric text is ignored. -/
theorem c7_numeric_range (cells : List Cell) (lo hi : Fl) :
    range_bad cells lo hi = spec_range_bad cells lo hi ∧
    range_bad [some "90.0"] (.fin (mkRat (-90) 1)) (.fin (mkRat 90 1)) = [] ∧
    range_bad [some "90.0001"] (.fin (mkRat (-90) 1)) (.fin (mkRat 90 1)) =
      [mkRat 900001 10000] ∧
    mkRat 900001 10000 = (900001 : Rat) / 10000 ∧
    range_bad [some "not a number"] (.fin (mkRat (-90) 1)) (.fin (mkRat 90 1)) = [] := by
  refine ⟨?_, rfl, rfl, ?_, rfl⟩
  · unfold range_bad spec_range_bad
    exact List.filter_filterMap _ _ _
  · rw [Rat.mkRat_eq_div]; norm_num

/-- C1 counterexample: a power_class column consisting of one null cell.
The code stringifies the null to "nan" and reports one violation, while
the claim (nulls ignored, violations counted among non-null values only)
predicts none. -/
theorem c1_counterexample_null_power_class :
    power_class_bad [none] = ["nan"] ∧
    spec_setMembership_bad [none] = [] ∧
    setCheck "charging_stations_world.csv.power_class" [none] =
      some (.setViol "charging_stations_world.csv.power_class" 1 ["nan"]) :=
  ⟨rfl, rfl, rfl⟩

/-- C1 amended: the power_class check does not ignore nulls.  Its
violation count is the number of non-null values whose trimmed,
lowercased form is not in the allowed set PLUS the number of nulls (each
null is stringified to "nan", which is never in the allowed set), and it
reports no violation iff the non-null values are all in the set AND the
column has no nulls. -/
theorem power_class_bad_cons (c : Cell) (cs : List Cell) :
    power_class_bad (c :: cs) =
      if allowedPc.contains (normalizePc (astypeStr c)) then power_class_bad cs
      else normalizePc (astypeStr c) :: power_class_bad cs := by
  by_cases h : allowedPc.contains (normalizePc (astypeStr c)) = true <;>
    simp [power_class_bad, List.filter_cons, h]

theorem spec_setMembership_bad_cons_some (s : String) (cs : List Cell) :
    spec_setMembership_bad (some s :: cs) =
      if allowedPc.contains (normalizePc s) then spec_setMembership_bad cs
      else normalizePc s :: spec_setMembership_bad cs := by
  by_cases h : allowedPc.contains (normalizePc s) = true <;>
    simp [spec_setMembership_bad, dropna, List.filter_cons, h]

theorem c1_set_membership_counts_nulls (name : String) (cells : List Cell) :
    (power_class_bad cells).length =
      (spec_setMembership_bad cells).length + cells.countP (fun c => c.isNone) ∧
    (setCheck name cells = none ↔
      spec_setMembership_bad cells = [] ∧ cells.countP (fun c => c.isNone) = 0) := by
  have hcount : ∀ l : List Cell, (power_class_bad l).length =
      (spec_setMembership_bad l).length + l.countP (fun c => c.isNone) := by
    intro l
    induction l with
    | nil => rfl
    | cons c cs ih =>
      cases c with
      | none =>
        have hnan : (allowedPc.contains (normalizePc (astypeStr none))) = false := rfl
        have hspec : spec_setMembership_bad (none :: cs) = spec_setMembership_bad cs := rfl
        rw [power_class_bad_cons, hnan, hspec]
        simp only [List.countP_cons, Option.isNone_none, if_true, if_false,
          List.length_cons, Bool.false_eq_true, ite_false]
        omega
      | some s =>
        have hspec := spec_setMembership_bad_cons_some s cs
        rw [power_class_bad_cons, hspec]
        by_cases hs : (allowedPc.contains (normalizePc (astypeStr (some s)))) = true
        · have hs2 : (allowedPc.contains (normalizePc s)) = true := hs
          simp only [hs, hs2, if_true, List.countP_cons, Option.isNone_some,
            Bool.false_eq_true, ite_false]
          omega
        · have hs2 : (allowedPc.contains (normalizePc s)) = true ↔ False := by
            simpa using hs
          simp only [Bool.not_eq_true] at hs
          have hs3 : (allowedPc.contains (normalizePc s)) = false := hs
          simp only [hs, hs3, Bool.false_eq_true, ite_false, List.length_cons,
            List.countP_cons, Option.isNone_some]
          omega
  refine ⟨hcount cells, ?_⟩
  have hnone : setCheck name cells = none ↔ power_class_bad cells = [] := by
    unfold setCheck
    cases hb : power_class_bad cells with
    | nil => simp
    | cons x xs => simp
  rw [hnone, ← List.length_eq_zero, hcount cells]
  constructor
  · intro h
    exact ⟨List.length_eq_zero.mp (by omega), by omega⟩
  · intro h
    obtain ⟨h1, h2⟩ := h
    rw [h1, h2]
    simp

/-- C2: the reconciler's diff computation flags exactly the keys whose
declared count differs from the recomputed count, but when at least one
key is flagged the run crashes with a TypeError (from
`Series.to_dict(orient="records")`) instead of producing the violation:
primary rows US, US, DE with a matching summary finish cleanly, and with
a summary declaring US: 3 the run ends in an uncaught exception with no
reconciliation message printed. -/
theorem c2_reconciler_mismatch_crashes :
    reconcileFlagged [some "US", some "US", some "DE"] [("US", 2), ("DE", 1)] = [] ∧
    reconcileFlagged [some "US", some "US", some "DE"] [("US", 3), ("DE", 1)] =
      [{ key := "US", declared := 3, computed := 2 }] ∧
    validate false (.parseOk "charging_stations_world.csv" usDeStations)
      (some (.parseOk "country_summary.csv" summaryMatching)) = ⟨[], .exit0, 7⟩ ∧
    validate false (.parseOk "charging_stations_world.csv" usDeStations)
      (some (.parseOk "country_summary.csv" summaryMismatched)) =
      ⟨[], .pyError toDictTypeError, 7⟩ :=
  ⟨rfl, rfl, rfl, rfl⟩

theorem duplicatedMarks_eq_nil_of_nodup (l : List String) :
    ∀ seen : List String, l.Nodup → (∀ x ∈ l, x ∉ seen) → duplicatedMarks seen l = [] := by
  induction l with
  | nil => intro seen _ _; rfl
  | cons x xs ih =>
    intro seen hnd hdis
    have hx : x ∉ seen := hdis x (by simp)
    rw [duplicatedMarks, if_neg hx]
    refine ih (x :: seen) hnd.of_cons ?_
    intro y hy
    simp only [List.mem_cons, not_or]
    exact ⟨fun he => (List.nodup_cons.mp hnd).1 (he ▸ hy),
      hdis y (List.mem_cons_of_mem x hy)⟩

theorem nodup_of_duplicatedMarks_eq_nil (l : List String) :
    ∀ seen : List String, duplicatedMarks seen l = [] →
      l.Nodup ∧ ∀ x ∈ l, x ∉ seen := by
  induction l with
  | nil => intro seen _; exact ⟨List.nodup_nil, by simp⟩
  | cons x xs ih =>
    intro seen h
    by_cases hx : x ∈ seen
    · rw [duplicatedMarks, if_pos hx] at h
      exact absurd h (List.cons_ne_nil x _)
    · rw [duplicatedMarks, if_neg hx] at h
      obtain ⟨hnd, hdis⟩ := ih (x :: seen) h
      have hxxs : x ∉ xs := fun hmem =>
        (by simpa using hdis x hmem : ¬(x = x ∨ x ∈ seen)) (Or.inl rfl)
      refine ⟨List.nodup_cons.mpr ⟨hxxs, hnd⟩, ?_⟩
      intro y hy
      rcases List.mem_cons.mp hy with he | hmem
      · exact he ▸ hx
      · exact fun hin => (by simpa using hdis y hmem : ¬(y = x ∨ y ∈ seen)) (Or.inr hin)

theorem duplicatedMarks_length (l : List String) :
    ∀ seen : List String,
      (duplicatedMarks seen l).length +
        ((l.filter (fun x => decide (x ∉ seen))).toFinset.card) = l.length := by
  induction l with
  | nil => intro seen; simp [duplicatedMarks]
  | cons x xs ih =>
    intro seen
    by_cases hx : x ∈ seen
    · have hfx : (decide (x ∉ seen)) = false := by simp [hx]
      rw [duplicatedMarks, if_pos hx, List.filter_cons, hfx]
      simp only [Bool.false_eq_true, ite_false, List.length_cons]
      have := ih seen
      omega
    · have hfx : (decide (x ∉ seen)) = true := by simp [hx]
      rw [duplicatedMarks, if_neg hx, List.filter_cons, hfx]
      simp only [if_true, List.length_cons]
      have hsets : (xs.filter (fun y => decide (y ∉ x :: seen))).toFinset =
          ((xs.filter (fun y => decide (y ∉ seen))).toFinset).erase x := by
        ext y
        simp only [List.mem_toFinset, List.mem_filter, Finset.mem_erase,
          decide_eq_true_eq, List.mem_cons, not_or]
        tauto
      have hcard : ((x :: xs.filter (fun y => decide (y ∉ seen))).toFinset).card =
          (((xs.filter (fun y => decide (y ∉ seen))).toFinset).erase x).card + 1 := by
        rw [List.toFinset_cons]
        by_cases hmem : x ∈ (xs.filter (fun y => decide (y ∉ seen))).toFinset
        · rw [Finset.insert_eq_self.mpr hmem, Finset.card_erase_of_mem hmem]
          have : 0 < (xs.filter (fun y => decide (y ∉ seen))).toFinset.card :=
            Finset.card_pos.mpr ⟨x, hmem⟩
          omega
        · rw [Finset.card_insert_of_not_mem hmem, Finset.erase_eq_of_not_mem hmem]
      have := ih (x :: seen)
      rw [hsets] at this
      omega

theorem sum_count_toFinset (l : List String) :
    ∑ v ∈ l.toFinset, l.count v = l.length := by
  simp [Multiset.toFinset_sum_count_eq (l : Multiset String)]

/-- C5: Uniqueness reports no violation iff the non-null values are
distinct; with a duplicate present it reports exactly one violation whose
count is the total number of occurrences beyond the first per value, with
a sample of up to 5 of the later occurrences. -/
theorem c5_uniqueness (name : String) (cells : List Cell) :
    (uniqueCheck name cells = none ↔ (dropna cells).Nodup) ∧
    (unique_dups cells).length =
      ∑ v ∈ (dropna cells).toFinset, ((dropna cells).count v - 1) ∧
    (¬ (dropna cells).Nodup →
      uniqueCheck name cells =
        some (.dupIds name (unique_dups cells).length ((unique_dups cells).take 5))) := by
  set l := dropna cells with hl
  have hml : (unique_dups cells).length + l.toFinset.card = l.length := by
    have h := duplicatedMarks_length l []
    simpa [unique_dups, hl] using h
  have hsum : ∑ v ∈ l.toFinset, (l.count v - 1) = l.length - l.toFinset.card := by
    have hsub : ∑ v ∈ l.toFinset, (l.count v - 1) =
        (∑ v ∈ l.toFinset, l.count v) - ∑ v ∈ l.toFinset, 1 := by
      refine Finset.sum_tsub_distrib l.toFinset ?_
      intro v hv
      have : v ∈ l := List.mem_toFinset.mp hv
      exact List.count_pos_iff.mpr this
    rw [hsub, sum_count_toFinset, Finset.sum_const, smul_eq_mul, mul_one]
  have hnil : unique_dups cells = [] ↔ l.Nodup := by
    constructor
    · intro h
      exact (nodup_of_duplicatedMarks_eq_nil l [] (by simpa [unique_dups, hl] using h)).1
    · intro h
      have := duplicatedMarks_eq_nil_of_nodup l [] h (by simp)
      simpa [unique_dups, hl] using this
  refine ⟨?_, by omega, ?_⟩
  · unfold uniqueCheck
    cases hb : unique_dups cells with
    | nil =>
        simp only [hb] at hnil ⊢
        simpa using hnil
    | cons x xs =>
        simp only [hb] at hnil ⊢
        simp only [List.length_cons, gt_iff_lt, Nat.succ_pos, if_true]
        constructor
        · intro h; exact absurd h (by simp)
        · intro h
          exact absurd (hnil.mpr h) (by simp)
  · intro h
    have hne : unique_dups cells ≠ [] := fun he => h (hnil.mp he)
    unfold uniqueCheck
    cases hb : unique_dups cells with
    | nil => exact absurd hb hne
    | cons x xs => simp

/-- C5 witness: a concrete id column with one duplicated value. -/
theorem c5_uniqueness_witness :
    uniqueCheck "charging_stations_world.csv.id" [some "a", some "a", some "b"] =
      some (.dupIds "charging_stations_world.csv.id" 1 ["a"]) :=
  (c5_uniqueness "charging_stations_world.csv.id" [some "a", some "a", some "b"]).2.2
    (by decide)

theorem runChecks_all_none (b : Bool) (l : List (Option Payload))
    (h : ∀ c ∈ l, c = none) : runChecks b l = ⟨[], false, l.length⟩ := by
  induction l with
  | nil => rfl
  | cons c cs ih =>
    have hc : c = none := h c (by simp)
    subst hc
    have ih2 := ih (fun c hc => h c (List.mem_cons_of_mem _ hc))
    simp [runChecks, ih2]

theorem runChecks_append_none (b : Bool) (pre rest : List (Option Payload))
    (h : ∀ c ∈ pre, c = none) :
    runChecks b (pre ++ rest) =
      ⟨(runChecks b rest).printed, (runChecks b rest).aborted,
        (runChecks b rest).evaluated + pre.length⟩ := by
  induction pre with
  | nil => rfl
  | cons c cs ih =>
    have hc : c = none := h c (by simp)
    subst hc
    have ih2 := ih (fun c hc => h c (List.mem_cons_of_mem _ hc))
    simp [runChecks, ih2, ChecksResult.mk.injEq]
    omega

theorem runChecks_advisory_no_abort (l : List (Option Payload)) :
    (runChecks false l).aborted = false := by
  induction l with
  | nil => rfl
  | cons c cs ih =>
    cases c <;> simp [runChecks, ih]

theorem runChecks_strict_some (v : Payload) (post : List (Option Payload)) :
    runChecks true (some v :: post) = ⟨[(.fail, v)], true, 1⟩ := rfl

theorem runChecks_advisory_some (v : Payload) (post : List (Option Payload))
    (h : ∀ c ∈ post, c = none) :
    runChecks false (some v :: post) = ⟨[(.warn, v)], false, post.length + 1⟩ := by
  simp [runChecks, runChecks_all_none false post h]

theorem validate_parseOk (b : Bool) (path : String) (t : Table)
    (comp : Option CsvSource) (hm : missingColsOf t = []) :
    validate b (.parseOk path t) comp =
      (let r := runChecks b (stationsChecks path t)
       if r.aborted then ⟨r.printed, .exit1, r.evaluated⟩
       else companionPhase b t r comp) := by
  unfold validate
  simp [hm]

/-- C3: on a dataset whose rule phase contains exactly one violation,
strict mode prints it with the failure marker, exits non-zero, and
evaluates no check past the violating one, while advisory mode prints it
with the warning marker, still evaluates every check, and exits zero. -/
theorem c3_mode_semantics (path : String) (t : Table) (pre post : List (Option Payload))
    (v : Payload) (hm : missingColsOf t = [])
    (hsplit : stationsChecks path t = pre ++ some v :: post)
    (hpre : ∀ c ∈ pre, c = none) (hpost : ∀ c ∈ post, c = none) :
    validate true (.parseOk path t) none = ⟨[(.fail, v)], .exit1, pre.length + 1⟩ ∧
    validate false (.parseOk path t) none =
      ⟨[(.warn, v)], .exit0, (stationsChecks path t).length⟩ := by
  have hstrict : runChecks true (stationsChecks path t) =
      ⟨[(.fail, v)], true, pre.length + 1⟩ := by
    rw [hsplit, runChecks_append_none true pre _ hpre, runChecks_strict_some]
    simp [ChecksResult.mk.injEq]
    omega
  have hadv : runChecks false (stationsChecks path t) =
      ⟨[(.warn, v)], false, (stationsChecks path t).length⟩ := by
    rw [hsplit, runChecks_append_none false pre _ hpre,
      runChecks_advisory_some v post hpost]
    simp [ChecksResult.mk.injEq]
    omega
  constructor
  · rw [validate_parseOk true path t none hm, hstrict]
    rfl
  · rw [validate_parseOk false path t none hm, hadv]
    rfl

/-- C3 witness: `badLatStations` has exactly one rule violation (the
latitude range, third in declared order); strict mode stops after three
checks with exit 1, advisory mode runs all seven and exits 0. -/
theorem c3_mode_semantics_witness :
    validate true (.parseOk "charging_stations_world.csv" badLatStations) none =
      ⟨[(.fail, badLatViol)], .exit1, 3⟩ ∧
    validate false (.parseOk "charging_stations_world.csv" badLatStations) none =
      ⟨[(.warn, badLatViol)], .exit0, 7⟩ := by
  have h := c3_mode_semantics "charging_stations_world.csv" badLatStations
    [none, none] [none, none, none, none] badLatViol rfl rfl (by simp) (by simp)
  exact h

/-- C4: a primary table missing required columns aborts fatally in both
modes, printing a failure message that lists exactly the missing names,
with zero data-quality rules evaluated. -/
theorem c4_missing_columns_abort (b : Bool) (path : String) (t : Table)
    (comp : Option CsvSource) (h : missingColsOf t ≠ []) :
    validate b (.parseOk path t) comp =
      ⟨[(.fail, .missingCols path (missingColsOf t))], .exit1, 0⟩ ∧
    ∀ c, c ∈ missingColsOf t ↔ (c ∈ requiredCols ∧ t.hasCol c = false) := by
  constructor
  · have hne : (missingColsOf t).isEmpty = false := by
      cases hmc : missingColsOf t with
      | nil => exact absurd hmc h
      | cons x xs => rfl
    unfold validate
    simp [hne]
  · intro c
    simp [missingColsOf, List.mem_filter]

/-- C4 witness: a table holding only an id column. -/
theorem c4_missing_columns_abort_witness :
    validate true (.parseOk "charging_stations_world.csv" onlyIdStations) none =
      ⟨[(.fail, .missingCols "charging_stations_world.csv"
          ["name", "city", "country_code", "state_province", "latitude",
           "longitude", "ports", "power_kw", "power_class", "is_fast_dc"])],
        .exit1, 0⟩ :=
  (c4_missing_columns_abort true "charging_stations_world.csv" onlyIdStations none
    (by decide)).1

/-- C9: a companion summary table that exists but has no country_code
column is skipped entirely and silently: the run is indistinguishable
from one with no companion table at all, in both modes. -/
theorem c9_companion_without_key_skipped (b : Bool) (path : String) (t : Table)
    (cpath : String) (ct : Table) (h : ct.hasCol "country_code" = false) :
    validate b (.parseOk path t) (some (.parseOk cpath ct)) =
      validate b (.parseOk path t) none := by
  by_cases hm : missingColsOf t = []
  · rw [validate_parseOk b path t _ hm, validate_parseOk b path t none hm]
    have hcp : ∀ r : ChecksResult,
        companionPhase b t r (some (.parseOk cpath ct)) = companionPhase b t r none := by
      intro r
      simp [companionPhase, h]
    simp only [hcp]
  · have hne : (missingColsOf t).isEmpty = false := by
      cases hmc : missingColsOf t with
      | nil => exact absurd hmc hm
      | cons x xs => rfl
    unfold validate
    simp [hne]

/-- C9 witness: `usDeStations` with a companion lacking country_code
equals the companion-free run, in strict mode. -/
theorem c9_companion_without_key_skipped_witness :
    validate true (.parseOk "charging_stations_world.csv" usDeStations)
      (some (.parseOk "country_summary.csv" summaryNoKey)) =
    validate true (.parseOk "charging_stations_world.csv" usDeStations) none :=
  c9_companion_without_key_skipped true "charging_stations_world.csv" usDeStations
    "country_summary.csv" summaryNoKey rfl

/-- C10: a failed CSV parse is fatal regardless of mode: a primary-table
read failure aborts at once with the failure message and exit 1, and a
companion-table read failure (reached whenever the mode is advisory, or
strict with a clean rule phase) ends the run with exit 1 and the failure
message printed last, even though the companion file is optional. -/
theorem c10_read_failure_fatal (b : Bool) (p cp path : String) (t : Table)
    (comp : Option CsvSource) (hm : missingColsOf t = [])
    (hok : b = true → ∀ c ∈ stationsChecks path t, c = none) :
    validate b (.parseFail p) comp = ⟨[(.fail, .readFail p)], .exit1, 0⟩ ∧
    (validate b (.parseOk path t) (some (.parseFail cp))).outcome = .exit1 ∧
    (validate b (.parseOk path t) (some (.parseFail cp))).printed.getLast? =
      some (.fail, .readFail cp) := by
  refine ⟨rfl, ?_⟩
  rw [validate_parseOk b path t _ hm]
  cases b with
  | false =>
    simp only [runChecks_advisory_no_abort, Bool.false_eq_true, ite_false]
    exact ⟨rfl, List.getLast?_concat _⟩
  | true =>
    rw [runChecks_all_none true _ (hok rfl)]
    exact ⟨rfl, rfl⟩

/-- C10 witness: strict mode, clean stations table, unreadable companion. -/
theorem c10_read_failure_fatal_witness :
    validate true (.parseFail "charging_stations_world.csv") none =
      ⟨[(.fail, .readFail "charging_stations_world.csv")], .exit1, 0⟩ ∧
    (validate true (.parseOk "charging_stations_world.csv" usDeStations)
      (some (.parseFail "country_summary.csv"))).outcome = .exit1 ∧
    (validate true (.parseOk "charging_stations_world.csv" usDeStations)
      (some (.parseFail "country_summary.csv"))).printed.getLast? =
      some (.fail, .readFail "country_summary.csv") :=
  c10_read_failure_fatal true "charging_stations_world.csv" "country_summary.csv"
    "charging_stations_world.csv" usDeStations none rfl (fun _ => by decide)

instance : IsTotal String pathLe := ⟨fun a b => le_total a.data b.data⟩

instance : IsTrans String pathLe := ⟨fun _ _ _ hab hbc => le_trans hab hbc⟩

instance : IsAntisymm String pathLe :=
  ⟨fun a b h1 h2 => by
    cases a
    cases b
    exact congrArg String.mk (le_antisymm h1 h2)⟩

theorem sortedUnique_perm_invariant {l₁ l₂ : List String} (h : l₁.Perm l₂) :
    sortedUnique l₁ = sortedUnique l₂ := by
  unfold sortedUnique
  refine List.eq_of_perm_of_sorted ?_
    (List.sorted_insertionSort pathLe _) (List.sorted_insertionSort pathLe _)
  exact (List.perm_insertionSort pathLe l₁.dedup).trans
    (h.dedup.trans (List.perm_insertionSort pathLe l₂.dedup).symm)

/-- C8: the checksum writer is a pure function of the filesystem and the
pattern list (re-running over an unchanged file set is byte-identical),
and permuting the include patterns leaves the output unchanged, because
matched paths are deduplicated and sorted before writing. -/
theorem c8_checksums_deterministic (fs : FS) (pats pats' : List String)
    (h : pats.Perm pats') :
    write_checksums fs pats = write_checksums fs pats ∧
    write_checksums fs pats = write_checksums fs pats' := by
  refine ⟨rfl, ?_⟩
  have hp : (pats.flatMap fs.glob).Perm (pats'.flatMap fs.glob) :=
    List.Perm.flatMap_right fs.glob h
  have hf : ((pats.flatMap fs.glob).filter fs.isFile).Perm
      ((pats'.flatMap fs.glob).filter fs.isFile) := hp.filter fs.isFile
  simp only [write_checksums]
  rw [sortedUnique_perm_invariant hf]

/-- C8 witness: two overlapping patterns in either order produce the same
checksum file. -/
theorem c8_checksums_deterministic_witness :
    (["data", "docs"] : List String).Perm ["docs", "data"] ∧
    write_checksums twoPatFS ["data", "docs"] =
      write_checksums twoPatFS ["docs", "data"] ∧
    write_checksums twoPatFS ["data", "docs"] =
      "digest-of-README.md  README.md\ndigest-of-data/a.csv  data/a.csv\n" :=
  ⟨by decide, (c8_checksums_deterministic twoPatFS ["data", "docs"] ["docs", "data"]
    (by decide)).2, rfl⟩

end EVInfra
